import Mathlib

/-!
Shallow embedding of the parakeet CLI (src/main.rs): the client dispatcher
(run_transcribe / try_daemon_request), the daemon supervisor
(daemon_start / daemon_stop / daemon_status, is_pidfile_running / read_pid),
the vocabulary merge (prepare_vocab_file) and the JSON wire codec for
BackendRequest.  Filesystem and process state is passed explicitly; machine
integers are Nat with explicit bounds.
-/

namespace ParakeetCli

/-! ## JSON wire model

The request/response payloads of this protocol are objects whose leaves are
strings, booleans and nulls (the only numeric payloads, the response metrics,
are f64 values that the dispatch embedding treats through an abstract parse
function, so numbers are not needed here). -/

inductive Json where
  | null : Json
  | bool (b : Bool) : Json
  | str (s : String) : Json
  | arr (xs : List Json) : Json
  | obj (fields : List (String × Json)) : Json

/-- Hex digit characters used by the \u00XX escape (lowercase, as serde_json). -/
def hexDigit (n : Nat) : Char :=
  if n < 10 then Char.ofNat (48 + n) else Char.ofNat (87 + n)

/-- JSON string escaping of one character, as serde_json performs it:
quote and backslash escaped, the five short control escapes, all other
control characters as \u00XX, everything else passed through. -/
def escCharL (c : Char) : List Char :=
  if c = '"' then '\\' :: '"' :: []
  else if c = '\\' then '\\' :: '\\' :: []
  else if c = Char.ofNat 8 then '\\' :: 'b' :: []
  else if c = '\t' then '\\' :: 't' :: []
  else if c = '\n' then '\\' :: 'n' :: []
  else if c = Char.ofNat 12 then '\\' :: 'f' :: []
  else if c = '\r' then '\\' :: 'r' :: []
  else if c.toNat < 32 then
    '\\' :: 'u' :: '0' :: '0' :: hexDigit (c.toNat / 16) :: hexDigit (c.toNat % 16) :: []
  else c :: []

/-- Render a JSON string literal (opening quote, escaped chars, closing quote). -/
def renderStringL (cs : List Char) : List Char :=
  '"' :: (cs.foldr (fun c acc => escCharL c ++ acc) []) ++ ('"' :: [])

/-- Join rendered pieces with commas. -/
def commaJoin : List (List Char) → List Char
  | [] => []
  | x :: [] => x
  | x :: y :: rest => x ++ ',' :: commaJoin (y :: rest)

mutual

/-- Serialize a JSON value to its compact single-line text, as
serde_json::to_string does. -/
def renderJsonL : Json → List Char
  | .null => "null".data
  | .bool true => "true".data
  | .bool false => "false".data
  | .str s => renderStringL s.data
  | .arr xs => '[' :: commaJoin (renderArrL xs) ++ (']' :: [])
  | .obj fs => Char.ofNat 123 :: commaJoin (renderObjL fs) ++ (Char.ofNat 125 :: [])

def renderArrL : List Json → List (List Char)
  | [] => []
  | x :: xs => renderJsonL x :: renderArrL xs

def renderObjL : List (String × Json) → List (List Char)
  | [] => []
  | kv :: fs => (renderStringL kv.1.data ++ ':' :: renderJsonL kv.2) :: renderObjL fs

end

def renderJson (j : Json) : String :=
  String.mk (renderJsonL j)

/-! ## BackendRequest and its codec -/

/-- The request payload (struct BackendRequest in src/main.rs); paths are
modelled as their UTF-8 text, which is what serde serializes. -/
structure BackendRequest where
  input : String
  output : Option String
  model : String
  device : String
  vocab : Option String
  format : String
  timestamps : Bool
  fuzzy_vocab : Bool
  verbose : Bool
deriving DecidableEq, Repr

def optStrJson : Option String → Json
  | none => Json.null
  | some s => Json.str s

/-- serde serialization of BackendRequest: an object with the fields in
declaration order; Option fields become null or a string. -/
def encodeBackendRequest (r : BackendRequest) : Json :=
  Json.obj
    [("input", Json.str r.input),
     ("output", optStrJson r.output),
     ("model", Json.str r.model),
     ("device", Json.str r.device),
     ("vocab", optStrJson r.vocab),
     ("format", Json.str r.format),
     ("timestamps", Json.bool r.timestamps),
     ("fuzzy_vocab", Json.bool r.fuzzy_vocab),
     ("verbose", Json.bool r.verbose)]

def jsonLookup (fs : List (String × Json)) (k : String) : Option Json :=
  (fs.find? (fun kv => kv.1 == k)).map (fun kv => kv.2)

def asString : Json → Option String
  | .str s => some s
  | _ => none

def asBool : Json → Option Bool
  | .bool b => some b
  | _ => none

def asOptString : Json → Option (Option String)
  | .null => some none
  | .str s => some (some s)
  | _ => none

/-- Decode an optional string field: an absent field is none, a present
field must be a string or null. -/
def optField (fs : List (String × Json)) (k : String) : Option (Option String) :=
  match jsonLookup fs k with
  | none => some none
  | some v => asOptString v

/-- Modelled from the spec: the decoder of a Request payload lives in the
worker / daemon server, which is not part of this crate.  The spec requires
decode to fail (MalformedRequest) when the payload is not an object or a
required field is absent or wrong-typed. -/
def decodeBackendRequest (j : Json) : Option BackendRequest :=
  match j with
  | .obj fs => do
      let input ← jsonLookup fs "input" >>= asString
      let output ← optField fs "output"
      let model ← jsonLookup fs "model" >>= asString
      let device ← jsonLookup fs "device" >>= asString
      let vocab ← optField fs "vocab"
      let format ← jsonLookup fs "format" >>= asString
      let timestamps ← jsonLookup fs "timestamps" >>= asBool
      let fuzzy ← jsonLookup fs "fuzzy_vocab" >>= asBool
      let verbose ← jsonLookup fs "verbose" >>= asBool
      pure ⟨input, output, model, device, vocab, format, timestamps, fuzzy, verbose⟩
  | _ => none

/-! ### The request codec claims -/

/-- The wire line for a request: rendered single-line JSON text. -/
def encodeRequestLine (r : BackendRequest) : String :=
  renderJson (encodeBackendRequest r)

/-! ## String primitives

Core String.trim and the library order on String are defined by well-founded
recursion over byte positions, which the kernel cannot evaluate; the
embedding re-implements them structurally over the character list.
strTrim models str::trim (leading and trailing whitespace removed; Rust
trims Unicode White_Space, of which the ASCII cases are what these inputs
contain), and charListLt models the lexicographic Ord used by
BTreeSet of String. -/

/-- str::trim over the character list. -/
def strTrim (s : String) : String :=
  String.mk (((s.data.dropWhile Char.isWhitespace).reverse.dropWhile
    Char.isWhitespace).reverse)

/-- str::trim_start over the character list. -/
def strTrimLeft (s : String) : String :=
  String.mk (s.data.dropWhile Char.isWhitespace)

/-- str::starts_with with a single-character pattern. -/
def startsWithChar (s : String) (c : Char) : Bool :=
  match s.data with
  | [] => false
  | d :: _ => d = c

/-- Lexicographic comparison of character lists (the Ord of BTreeSet of
String: a strict prefix is smaller). -/
def charListLt : List Char → List Char → Bool
  | _, [] => false
  | [], _ :: _ => true
  | a :: as, b :: bs =>
    if a < b then true
    else if b < a then false
    else charListLt as bs

/-- The strict order on strings used by the vocabulary set. -/
def strLt (a b : String) : Bool :=
  charListLt a.data b.data

/-- strLt as a relation, for sortedness statements. -/
def sLt (a b : String) : Prop :=
  strLt a b = true

/-! ## Vocabulary merge (prepare_vocab_file, src/main.rs:547-571)

A file is modelled as its list of lines (the iteration order of
content.lines()).  Each line is trimmed; empty lines and lines starting
with the comment marker are skipped; the rest are collected into a
BTreeSet, modelled as insertion into a strictly sorted duplicate-free
list, and written out in ascending order, one term per line. -/

/-- The term a vocabulary line contributes, if any: the trimmed line unless
it is empty or a comment. -/
def vocabTerm (line : String) : Option String :=
  let term := strTrim line
  if term = "" then none
  else if startsWithChar term '#' then none
  else some term

/-- Ordered-set insertion (the BTreeSet::insert of the merge loop). -/
def insertSorted (x : String) : List String → List String
  | [] => x :: []
  | y :: ys =>
    if strLt x y then x :: y :: ys
    else if x = y then y :: ys
    else y :: insertSorted x ys

/-- Fold one file's lines into the accumulated set. -/
def mergeLines (acc : List String) (lines : List String) : List String :=
  lines.foldl (fun a line =>
    match vocabTerm line with
    | none => a
    | some t => insertSorted t a) acc

/-- Merge all vocabulary files into the sorted deduplicated term list. -/
def mergeVocab (files : List (List String)) : List String :=
  files.foldl mergeLines []

/-- The text written to merged_vocab.txt: each term followed by a newline. -/
def mergedVocabOutput (files : List (List String)) : String :=
  String.join ((mergeVocab files).map (fun t => t ++ "\n"))

/-! ## Daemon supervisor (src/main.rs:237-352)

The filesystem state the supervisor touches (PID file, socket file, log
file) is passed explicitly; the outcome of the kill(1) probe or signal for
each PID is a function argument.  IO read errors on an existing pidfile
(fs::read_to_string failing) are outside this state model: the pidfile is
either absent (none) or has readable content (some raw). -/

/-- Rust u32::from_str on already-trimmed text: optional leading plus sign,
one or more ASCII digits, value within the u32 range. -/
def parseU32 (s : String) : Option Nat :=
  let ds := match s.data with
    | c :: rest => if c = '+' then rest else c :: rest
    | [] => []
  if ds.isEmpty then none
  else if ds.all Char.isDigit then
    let n := ds.foldl (fun acc c => acc * 10 + (c.toNat - 48)) 0
    if n < 2 ^ 32 then some n else none
  else none

/-- read_pid: absent pidfile yields no PID; otherwise the content is
trimmed and parsed, a parse failure being mapped to no PID by .ok()
(never an error). -/
def read_pid (pidContent : Option String) : Option Nat :=
  match pidContent with
  | none => none
  | some raw => parseU32 (strTrim raw)

/-- is_pidfile_running: the recorded PID counts only if the kill -0
liveness probe against it succeeds. -/
def is_pidfile_running (pidContent : Option String) (alive : Nat → Bool) : Bool :=
  match read_pid pidContent with
  | none => false
  | some pid => alive pid

/-- Supervisor-visible filesystem state. -/
structure SupervisorFs where
  pidContent : Option String
  socketExists : Bool
  log : List String
deriving DecidableEq, Repr

inductive StartResult where
  | alreadyRunning : StartResult
  | started : StartResult
  | timedOut : StartResult
deriving DecidableEq, Repr

/-- Environment of one daemon_start run: current files, the probe outcomes,
the PID the spawn would produce, and whether the socket file exists at each
one-second poll iteration (the daemon process creates it asynchronously). -/
structure StartEnv where
  fs : SupervisorFs
  alive : Nat → Bool
  childPid : Nat
  socketAt : Nat → Bool

structure StartOutcome where
  result : StartResult
  fs : SupervisorFs
  spawned : Bool
deriving DecidableEq, Repr

/-- The bounded socket-appearance poll of daemon_start (240 one-second
iterations). -/
def pollLoop (socketAt : Nat → Bool) : Nat → Nat → StartResult
  | 0, _ => StartResult.timedOut
  | fuel + 1, i =>
      if socketAt i then StartResult.started
      else pollLoop socketAt fuel (i + 1)

/-- daemon_start: no-op when the recorded PID probes alive; otherwise
remove any stale socket file, spawn the serve process, write its PID to the
pidfile, then poll up to 240 times for the socket file.  (Directory
creation and log-file opening mutate nothing in this state model; the
socket file itself is created by the spawned daemon, which socketAt
describes.) -/
def daemon_start (env : StartEnv) : StartOutcome :=
  if is_pidfile_running env.fs.pidContent env.alive then
    ⟨StartResult.alreadyRunning, env.fs, false⟩
  else
    ⟨pollLoop env.socketAt 240 0,
     ⟨some (toString env.childPid), false, env.fs.log⟩,
     true⟩

inductive StopResult where
  | stopped : StopResult
  | notRunning : StopResult
  | signalFailed : StopResult
deriving DecidableEq, Repr

/-- Outcome of daemon_stop: the reported result (signalFailed is the bail
path, a non-zero exit) and whether the PID file and socket file were
removed. -/
structure StopOutcome where
  result : StopResult
  pidfileRemoved : Bool
  socketRemoved : Bool
deriving DecidableEq, Repr

/-- daemon_stop: read the PID; if present, run kill on it, bailing out
before any cleanup when the kill command fails; the file removals happen
only on the paths that reach them. -/
def daemon_stop (pidContent : Option String) (killOk : Nat → Bool) : StopOutcome :=
  match read_pid pidContent with
  | some pid =>
      if killOk pid then ⟨StopResult.stopped, true, true⟩
      else ⟨StopResult.signalFailed, false, false⟩
  | none => ⟨StopResult.notRunning, true, true⟩

inductive StatusResult where
  | running : StatusResult
  | notRunning : StatusResult
deriving DecidableEq, Repr

/-- daemon_status: reports running iff the liveness probe on the recorded
PID succeeds; the not-running case is the bail path (non-zero exit). -/
def daemon_status (pidContent : Option String) (alive : Nat → Bool) : StatusResult :=
  if is_pidfile_running pidContent alive then StatusResult.running
  else StatusResult.notRunning

/-- Exit code of the status command (bail on not running). -/
def statusExitCode : StatusResult → Nat
  | StatusResult.running => 0
  | StatusResult.notRunning => 1

/-- Exit code of the stop command (bail on signal failure). -/
def stopExitCode : StopResult → Nat
  | StopResult.signalFailed => 1
  | _ => 0

/-! ## Client dispatcher (run_transcribe / try_daemon_request,
src/main.rs:354-497)

The socket and subprocess interactions are passed in as their observable
outcomes; the response parser (serde_json::from_str for BackendResponse,
whose float metrics the model keeps abstract) is a function argument. -/

/-- Response metrics; the f64 second counts are modelled as rationals (no
claim computes with them). -/
structure BackendMetrics where
  model_load_sec : Rat
  inference_sec : Rat
  total_sec : Rat
  audio_sec : Option Rat
deriving DecidableEq, Repr

/-- The response payload (struct BackendResponse in src/main.rs). -/
structure BackendResponse where
  transcript : String
  output_path : Option String
  source : String
  model : String
  device : String
  format : String
  metrics : Option BackendMetrics
deriving DecidableEq, Repr

/-- Failure modes of the daemon fast path, one per early return of
try_daemon_request. -/
inductive DaemonErr where
  | connectFailed : DaemonErr
  | writeFailed : DaemonErr
  | readFailed : DaemonErr
  | emptyResponse : DaemonErr
  | malformedJson : DaemonErr
deriving DecidableEq, Repr

/-- Observable outcomes of the socket steps of one daemon attempt:
whether connect succeeds, whether the timeout setup and request write
succeed, and the response line (none = read error or timeout). -/
structure DaemonWire where
  connectOk : Bool
  writeOk : Bool
  readLine : Option String
deriving DecidableEq, Repr

/-- try_daemon_request: connect, write the request line, read one line;
an empty trimmed line or unparsable JSON is an error.  Every failure is an
Except.error, mirroring the anyhow returns of the source. -/
def try_daemon_request (parse : String → Option BackendResponse)
    (w : DaemonWire) : Except DaemonErr BackendResponse :=
  if w.connectOk = false then Except.error DaemonErr.connectFailed
  else if w.writeOk = false then Except.error DaemonErr.writeFailed
  else match w.readLine with
    | none => Except.error DaemonErr.readFailed
    | some line =>
        if strTrim line = "" then Except.error DaemonErr.emptyResponse
        else match parse (strTrim line) with
          | none => Except.error DaemonErr.malformedJson
          | some r => Except.ok r

/-- Fatal dispatcher errors (each is a bail/anyhow error of
run_transcribe; note none of them mentions the daemon path). -/
inductive FatalErr where
  | inputMissing : FatalErr
  | pythonEnvMissing : FatalErr
  | backendScriptMissing : FatalErr
  | vocabPrepFailed : FatalErr
  | workerFailure (stderrLines : List String) : FatalErr
  | noStructuredOutput : FatalErr
  | malformedBackendOutput : FatalErr
deriving DecidableEq, Repr

inductive DispatchOutcome where
  | daemonServed (r : BackendResponse) : DispatchOutcome
  | subprocessServed (r : BackendResponse) : DispatchOutcome
  | fatal (e : FatalErr) : DispatchOutcome
deriving DecidableEq, Repr

/-- line.trim_start().starts_with(left brace): the test for a
JSON-shaped stdout line. -/
def jsonShaped (line : String) : Bool :=
  startsWithChar (strTrimLeft line) (Char.ofNat 123)

/-- The last stdout line that looks like a structured JSON payload
(stdout_text.lines().rev().find(..); joining captured lines with newlines
and re-splitting is the identity on them, since each captured line is
newline-free). -/
def lastJsonLine (ls : List String) : Option String :=
  ls.reverse.find? jsonShaped

/-- Observable outcome of the subprocess worker: exit status and the
concurrently captured stdout/stderr lines. -/
structure SubprocessOutcome where
  exitSuccess : Bool
  stdoutLines : List String
  stderrLines : List String
deriving DecidableEq, Repr

/-- The subprocess fallback path of run_transcribe after the worker has
exited and the stream readers have been joined. -/
def run_subprocess (parse : String → Option BackendResponse)
    (sub : SubprocessOutcome) : DispatchOutcome :=
  if sub.exitSuccess = false then
    DispatchOutcome.fatal (FatalErr.workerFailure sub.stderrLines)
  else match lastJsonLine sub.stdoutLines with
    | none => DispatchOutcome.fatal FatalErr.noStructuredOutput
    | some line =>
        match parse (strTrim line) with
        | none => DispatchOutcome.fatal FatalErr.malformedBackendOutput
        | some r => DispatchOutcome.subprocessServed r

/-- The dispatch decision of run_transcribe (main.rs:397-402): with the
daemon enabled, a successful daemon attempt returns immediately; any
daemon error falls through to the subprocess path.  The two booleans
record which path produced the outcome (daemon fast path, subprocess
fallback). -/
def dispatchRequest (parse : String → Option BackendResponse)
    (noDaemon : Bool) (w : DaemonWire) (sub : SubprocessOutcome) :
    DispatchOutcome × Bool × Bool :=
  if noDaemon = false then
    match try_daemon_request parse w with
    | Except.ok r => (DispatchOutcome.daemonServed r, true, false)
    | Except.error _ => (run_subprocess parse sub, false, true)
  else (run_subprocess parse sub, false, true)

/-- Environment of one run_transcribe call: the upstream validation facts
and the dispatch-path outcomes. -/
structure TranscribeEnv where
  noDaemon : Bool
  inputExists : Bool
  venvPythonExists : Bool
  backendExists : Bool
  vocabOk : Bool
  wire : DaemonWire
  sub : SubprocessOutcome

/-- run_transcribe: upstream validation (input path, python env, backend
script, vocabulary preparation) aborts before dispatch; otherwise exactly
the dispatch logic runs. -/
def run_transcribe (parse : String → Option BackendResponse)
    (env : TranscribeEnv) : DispatchOutcome × Bool × Bool :=
  if env.inputExists = false then
    (DispatchOutcome.fatal FatalErr.inputMissing, false, false)
  else if env.venvPythonExists = false then
    (DispatchOutcome.fatal FatalErr.pythonEnvMissing, false, false)
  else if env.backendExists = false then
    (DispatchOutcome.fatal FatalErr.backendScriptMissing, false, false)
  else if env.vocabOk = false then
    (DispatchOutcome.fatal FatalErr.vocabPrepFailed, false, false)
  else dispatchRequest parse env.noDaemon env.wire env.sub

/-- Process exit code of the dispatcher: non-zero exactly on a fatal
error (anyhow error from main). -/
def exitCode : DispatchOutcome → Nat
  | DispatchOutcome.fatal _ => 1
  | _ => 0

/-! ## Theorems -/

/-! ### Newline-freeness of the rendered request line -/

theorem hexDigit_ne_newline {n : Nat} (h : n < 16) : hexDigit n ≠ '\n' := by
  interval_cases n <;> decide

theorem escCharL_noNL (c : Char) : '\n' ∉ escCharL c := by
  unfold escCharL
  split
  · decide
  · split
    · decide
    · split
      · decide
      · split
        · decide
        · split
          · decide
          · split
            · decide
            · split
              · decide
              · split
                · rename_i h
                  intro hmem
                  simp only [List.mem_cons, List.not_mem_nil, or_false] at hmem
                  rcases hmem with h1 | h1 | h1 | h1 | h1 | h1
                  · exact absurd h1.symm (by decide)
                  · exact absurd h1.symm (by decide)
                  · exact absurd h1.symm (by decide)
                  · exact absurd h1.symm (by decide)
                  · exact hexDigit_ne_newline (Nat.div_lt_of_lt_mul (by omega)) h1.symm
                  · exact hexDigit_ne_newline (Nat.mod_lt _ (by omega)) h1.symm
                · rename_i h1 h2 h3 h4 h5 h6 h7 h8
                  intro hmem
                  simp only [List.mem_cons, List.not_mem_nil, or_false] at hmem
                  apply h8
                  rw [← hmem]
                  decide

theorem escFold_noNL (cs : List Char) :
    '\n' ∉ List.foldr (fun c acc => escCharL c ++ acc) [] cs := by
  induction cs with
  | nil => simp
  | cons c cs ih =>
      simp only [List.foldr_cons]
      intro h
      rcases List.mem_append.mp h with h | h
      · exact escCharL_noNL c h
      · exact ih h

theorem renderStringL_noNL (cs : List Char) : '\n' ∉ renderStringL cs := by
  unfold renderStringL
  intro hmem
  rcases List.mem_cons.mp hmem with h | h
  · exact absurd h (by decide)
  · rcases List.mem_append.mp h with h | h
    · exact escFold_noNL cs h
    · rcases List.mem_cons.mp h with h | h
      · exact absurd h (by decide)
      · simp at h

theorem commaJoin_noNL (xs : List (List Char)) (h : ∀ x ∈ xs, '\n' ∉ x) :
    '\n' ∉ commaJoin xs := by
  induction xs with
  | nil => simp [commaJoin]
  | cons x rest ih =>
      cases rest with
      | nil => simpa [commaJoin] using h x (by simp)
      | cons y ys =>
          unfold commaJoin
          intro hmem
          simp only [List.mem_append, List.mem_cons] at hmem
          rcases hmem with hx | hc | hc
          · exact h x (by simp) hx
          · exact absurd hc (by decide)
          · exact ih (fun z hz => h z (List.mem_cons_of_mem _ hz)) hc

theorem renderJsonL_str_noNL (s : String) : '\n' ∉ renderJsonL (Json.str s) :=
  renderStringL_noNL s.data

theorem renderJsonL_bool_noNL (b : Bool) : '\n' ∉ renderJsonL (Json.bool b) := by
  cases b <;> decide

theorem renderJsonL_optStr_noNL (o : Option String) : '\n' ∉ renderJsonL (optStrJson o) := by
  cases o with
  | none => decide
  | some s => exact renderStringL_noNL s.data

theorem objEntry_noNL (k : String) (v : Json) (hv : '\n' ∉ renderJsonL v) :
    '\n' ∉ renderStringL k.data ++ ':' :: renderJsonL v := by
  intro hmem
  rcases List.mem_append.mp hmem with h | h
  · exact renderStringL_noNL k.data h
  · rcases List.mem_cons.mp h with h | h
    · exact absurd h (by decide)
    · exact hv h

/-- C9: for every well-formed Request, encoding to the single-line JSON wire
form and decoding that payload yields the original Request, and the encoded
line contains no embedded newline. -/
theorem C9_request_codec_roundtrip (r : BackendRequest) :
    decodeBackendRequest (encodeBackendRequest r) = some r ∧
    '\n' ∉ (encodeRequestLine r).data := by
  constructor
  · cases r with
    | mk input output model device vocab format ts fz vb =>
        cases output <;> cases vocab <;> rfl
  · show '\n' ∉ renderJsonL (encodeBackendRequest r)
    have hobj : renderJsonL (encodeBackendRequest r) =
        Char.ofNat 123 ::
          commaJoin (renderObjL
            [("input", Json.str r.input),
             ("output", optStrJson r.output),
             ("model", Json.str r.model),
             ("device", Json.str r.device),
             ("vocab", optStrJson r.vocab),
             ("format", Json.str r.format),
             ("timestamps", Json.bool r.timestamps),
             ("fuzzy_vocab", Json.bool r.fuzzy_vocab),
             ("verbose", Json.bool r.verbose)]) ++ (Char.ofNat 125 :: []) := rfl
    rw [hobj]
    intro hmem
    rcases List.mem_cons.mp hmem with h | h
    · exact absurd h (by decide)
    · rcases List.mem_append.mp h with h | h
      · refine commaJoin_noNL _ ?_ h
        intro x hx
        simp only [renderObjL, List.mem_cons, List.not_mem_nil, or_false] at hx
        rcases hx with hx | hx | hx | hx | hx | hx | hx | hx | hx <;> subst hx
        · exact objEntry_noNL _ _ (renderJsonL_str_noNL r.input)
        · exact objEntry_noNL _ _ (renderJsonL_optStr_noNL r.output)
        · exact objEntry_noNL _ _ (renderJsonL_str_noNL r.model)
        · exact objEntry_noNL _ _ (renderJsonL_str_noNL r.device)
        · exact objEntry_noNL _ _ (renderJsonL_optStr_noNL r.vocab)
        · exact objEntry_noNL _ _ (renderJsonL_str_noNL r.format)
        · exact objEntry_noNL _ _ (renderJsonL_bool_noNL r.timestamps)
        · exact objEntry_noNL _ _ (renderJsonL_bool_noNL r.fuzzy_vocab)
        · exact objEntry_noNL _ _ (renderJsonL_bool_noNL r.verbose)
      · rcases List.mem_cons.mp h with h | h
        · exact absurd h (by decide)
        · simp at h

theorem charListLt_irrefl (cs : List Char) : charListLt cs cs = false := by
  induction cs with
  | nil => rfl
  | cons c cs ih => simp [charListLt, lt_irrefl, ih]

theorem charListLt_trans : ∀ {as bs cs : List Char},
    charListLt as bs = true → charListLt bs cs = true → charListLt as cs = true := by
  intro as
  induction as with
  | nil =>
      intro bs cs hab hbc
      cases bs with
      | nil => simp [charListLt] at hab
      | cons b bs =>
          cases cs with
          | nil => simp [charListLt] at hbc
          | cons c cs => simp [charListLt]
  | cons a as ih =>
      intro bs cs hab hbc
      cases bs with
      | nil => simp [charListLt] at hab
      | cons b bs =>
          cases cs with
          | nil => simp [charListLt] at hbc
          | cons c cs =>
              simp only [charListLt] at hab hbc ⊢
              rcases lt_trichotomy a b with h1 | h1 | h1
              · rcases lt_trichotomy b c with h2 | h2 | h2
                · simp [lt_trans h1 h2]
                · subst h2
                  simp [h1]
                · rw [if_neg (lt_asymm h2), if_pos h2] at hbc
                  exact Bool.noConfusion hbc
              · subst h1
                rw [if_neg (lt_irrefl a), if_neg (lt_irrefl a)] at hab
                rcases lt_trichotomy a c with h2 | h2 | h2
                · simp [h2]
                · subst h2
                  rw [if_neg (lt_irrefl a), if_neg (lt_irrefl a)] at hbc ⊢
                  exact ih hab hbc
                · rw [if_neg (lt_asymm h2), if_pos h2] at hbc
                  exact Bool.noConfusion hbc
              · rw [if_neg (lt_asymm h1), if_pos h1] at hab
                exact Bool.noConfusion hab

theorem charListLt_asymm {as bs : List Char} (h : charListLt as bs = true) :
    charListLt bs as = false := by
  cases hba : charListLt bs as with
  | false => rfl
  | true =>
      have := charListLt_trans h hba
      rw [charListLt_irrefl] at this
      cases this

theorem charListLt_conn : ∀ {as bs : List Char},
    charListLt as bs = false → charListLt bs as = false → as = bs := by
  intro as
  induction as with
  | nil =>
      intro bs hab hba
      cases bs with
      | nil => rfl
      | cons b bs => simp [charListLt] at hab
  | cons a as ih =>
      intro bs hab hba
      cases bs with
      | nil => simp [charListLt] at hba
      | cons b bs =>
          simp only [charListLt] at hab hba
          rcases lt_trichotomy a b with h1 | h1 | h1
          · rw [if_pos h1] at hab
            exact Bool.noConfusion hab
          · subst h1
            rw [if_neg (lt_irrefl a), if_neg (lt_irrefl a)] at hab hba
            exact congrArg (List.cons a) (ih hab hba)
          · rw [if_pos h1] at hba
            exact Bool.noConfusion hba

theorem strEq_of_data : ∀ (a b : String), a.data = b.data → a = b
  | ⟨_⟩, ⟨_⟩, h => congrArg String.mk h

theorem sLt_conn {a b : String} (hab : strLt a b = false) (hba : strLt b a = false) :
    a = b :=
  strEq_of_data a b (charListLt_conn hab hba)

theorem mem_insertSorted (x a : String) (l : List String) :
    a ∈ insertSorted x l ↔ a = x ∨ a ∈ l := by
  induction l with
  | nil => simp [insertSorted]
  | cons y ys ih =>
      unfold insertSorted
      split
      · simp [List.mem_cons]
      · split
        · rename_i hxy
          subst hxy
          simp only [List.mem_cons]
          tauto
        · simp only [List.mem_cons, ih]
          tauto

theorem sorted_insertSorted (x : String) (l : List String)
    (h : l.Sorted sLt) : (insertSorted x l).Sorted sLt := by
  induction l with
  | nil => simp [insertSorted, List.sorted_singleton]
  | cons y ys ih =>
      rw [List.sorted_cons] at h
      unfold insertSorted
      split
      · rename_i hlt
        rw [List.sorted_cons]
        refine ⟨?_, List.sorted_cons.mpr h⟩
        intro b hb
        rcases List.mem_cons.mp hb with hb | hb
        · exact hb ▸ hlt
        · exact charListLt_trans hlt (h.1 b hb)
      · split
        · exact List.sorted_cons.mpr h
        · rename_i hnlt hne
          have hyx : sLt y x := by
            cases hxy : strLt y x with
            | true => exact hxy
            | false =>
                have hf : strLt x y = false := by
                  revert hnlt
                  cases strLt x y <;> simp
                exact absurd (sLt_conn hf hxy) hne
          rw [List.sorted_cons]
          refine ⟨?_, ih h.2⟩
          intro b hb
          rcases (mem_insertSorted x b ys).mp hb with hb | hb
          · exact hb ▸ hyx
          · exact h.1 b hb

theorem mem_mergeLines (acc f : List String) (x : String) :
    x ∈ mergeLines acc f ↔ x ∈ acc ∨ ∃ line ∈ f, vocabTerm line = some x := by
  induction f generalizing acc with
  | nil => simp [mergeLines]
  | cons l ls ih =>
      show x ∈ mergeLines (match vocabTerm l with
            | none => acc
            | some t => insertSorted t acc) ls ↔ _
      rw [ih]
      cases hv : vocabTerm l with
      | none =>
          constructor
          · rintro (hx | ⟨line, hline, hterm⟩)
            · exact Or.inl hx
            · exact Or.inr ⟨line, List.mem_cons_of_mem l hline, hterm⟩
          · rintro (hx | ⟨line, hline, hterm⟩)
            · exact Or.inl hx
            · rcases List.mem_cons.mp hline with hline | hline
              · rw [hline, hv] at hterm
                cases hterm
              · exact Or.inr ⟨line, hline, hterm⟩
      | some t =>
          simp only [mem_insertSorted]
          constructor
          · rintro ((hx | hx) | ⟨line, hline, hterm⟩)
            · exact Or.inr ⟨l, List.mem_cons_self l ls, by rw [hv, hx]⟩
            · exact Or.inl hx
            · exact Or.inr ⟨line, List.mem_cons_of_mem l hline, hterm⟩
          · rintro (hx | ⟨line, hline, hterm⟩)
            · exact Or.inl (Or.inr hx)
            · rcases List.mem_cons.mp hline with hline | hline
              · rw [hline, hv] at hterm
                exact Or.inl (Or.inl (by injection hterm with h; exact h.symm))
              · exact Or.inr ⟨line, hline, hterm⟩

theorem sorted_mergeLines (acc f : List String) (h : acc.Sorted sLt) :
    (mergeLines acc f).Sorted sLt := by
  induction f generalizing acc with
  | nil => simpa [mergeLines] using h
  | cons l ls ih =>
      show ((mergeLines (match vocabTerm l with
            | none => acc
            | some t => insertSorted t acc) ls)).Sorted sLt
      cases hv : vocabTerm l with
      | none => simpa [hv] using ih acc h
      | some t => simpa [hv] using ih _ (sorted_insertSorted t acc h)

theorem mem_mergeFold (files : List (List String)) (acc : List String) (x : String) :
    x ∈ files.foldl mergeLines acc ↔
      x ∈ acc ∨ ∃ f ∈ files, ∃ line ∈ f, vocabTerm line = some x := by
  induction files generalizing acc with
  | nil => simp
  | cons f fs ih =>
      simp only [List.foldl_cons]
      rw [ih, mem_mergeLines]
      constructor
      · rintro ((hx | hx) | ⟨g, hg, hx⟩)
        · exact Or.inl hx
        · exact Or.inr ⟨f, List.mem_cons_self f fs, hx⟩
        · exact Or.inr ⟨g, List.mem_cons_of_mem f hg, hx⟩
      · rintro (hx | ⟨g, hg, hx⟩)
        · exact Or.inl (Or.inl hx)
        · rcases List.mem_cons.mp hg with hg | hg
          · exact Or.inl (Or.inr (hg ▸ hx))
          · exact Or.inr ⟨g, hg, hx⟩

theorem mem_mergeVocab (files : List (List String)) (x : String) :
    x ∈ mergeVocab files ↔ ∃ f ∈ files, ∃ line ∈ f, vocabTerm line = some x := by
  unfold mergeVocab
  rw [mem_mergeFold]
  simp

theorem sorted_mergeVocab (files : List (List String)) :
    (mergeVocab files).Sorted sLt := by
  unfold mergeVocab
  induction files using List.reverseRecOn with
  | nil => simp
  | append_singleton fs f ih =>
      rw [List.foldl_append]
      exact sorted_mergeLines _ f ih

theorem sortedStrEq (l₁ l₂ : List String)
    (h₁ : l₁.Sorted sLt) (h₂ : l₂.Sorted sLt)
    (h : ∀ x, x ∈ l₁ ↔ x ∈ l₂) : l₁ = l₂ := by
  haveI : IsIrrefl String sLt :=
    ⟨fun a ha => by simp [sLt, strLt, charListLt_irrefl] at ha⟩
  haveI : IsAntisymm String sLt :=
    ⟨fun a b hab hba => by
      have h1 : charListLt b.data a.data = false := charListLt_asymm hab
      have h2 : charListLt b.data a.data = true := hba
      rw [h1] at h2
      exact Bool.noConfusion h2⟩
  exact List.eq_of_perm_of_sorted
    ((List.perm_ext_iff_of_nodup h₁.nodup h₂.nodup).mpr h) h₁ h₂

/-- C6: vocabulary merge is idempotent and order-independent; the output is
the sorted deduplicated set of trimmed, non-empty, non-comment terms of the
input files, independent of file order. -/
theorem C6_vocab_merge_order_independent (fs₁ fs₂ : List (List String))
    (hperm : fs₁.Perm fs₂) :
    mergeVocab fs₁ = mergeVocab fs₂ ∧
    mergeVocab (fs₁ ++ fs₁) = mergeVocab fs₁ ∧
    (mergeVocab fs₁).Sorted sLt ∧
    (mergeVocab fs₁).Nodup ∧
    (∀ x, x ∈ mergeVocab fs₁ ↔ ∃ f ∈ fs₁, ∃ line ∈ f, vocabTerm line = some x) ∧
    mergedVocabOutput fs₁ = mergedVocabOutput fs₂ := by
  have hnodup : (mergeVocab fs₁).Nodup := by
    haveI : IsIrrefl String sLt :=
      ⟨fun a ha => by simp [sLt, strLt, charListLt_irrefl] at ha⟩
    exact (sorted_mergeVocab fs₁).nodup
  have heq : mergeVocab fs₁ = mergeVocab fs₂ := by
    refine sortedStrEq _ _ (sorted_mergeVocab fs₁) (sorted_mergeVocab fs₂) ?_
    intro x
    rw [mem_mergeVocab, mem_mergeVocab]
    constructor
    · rintro ⟨f, hf, hx⟩
      exact ⟨f, hperm.mem_iff.mp hf, hx⟩
    · rintro ⟨f, hf, hx⟩
      exact ⟨f, hperm.mem_iff.mpr hf, hx⟩
  have hidem : mergeVocab (fs₁ ++ fs₁) = mergeVocab fs₁ := by
    refine sortedStrEq _ _ (sorted_mergeVocab _) (sorted_mergeVocab fs₁) ?_
    intro x
    rw [mem_mergeVocab, mem_mergeVocab]
    constructor
    · rintro ⟨f, hf, hx⟩
      exact ⟨f, (List.mem_append.mp hf).elim id id, hx⟩
    · rintro ⟨f, hf, hx⟩
      exact ⟨f, List.mem_append.mpr (Or.inl hf), hx⟩
  exact ⟨heq, hidem, sorted_mergeVocab fs₁, hnodup, mem_mergeVocab fs₁,
    by rw [mergedVocabOutput, mergedVocabOutput, heq]⟩

/-- Witness for C6 at the spec's own scenario: files containing "alpha",
"Alpha", "beta" and a comment line, merged in either order. -/
theorem C6_vocab_merge_order_independent_witness :
    mergeVocab [["alpha", "# note"], ["Alpha", "beta", ""]] =
      mergeVocab [["Alpha", "beta", ""], ["alpha", "# note"]] ∧
    mergeVocab [["alpha", "# note"], ["Alpha", "beta", ""]] =
      ["Alpha", "alpha", "beta"] := by
  refine ⟨(C6_vocab_merge_order_independent
    [["alpha", "# note"], ["Alpha", "beta", ""]]
    [["Alpha", "beta", ""], ["alpha", "# note"]] (by decide)).1, by decide⟩

theorem pollLoop_started_iff (s : Nat → Bool) :
    ∀ (fuel i : Nat),
      (pollLoop s fuel i = StartResult.started ↔
        ∃ k, k < fuel ∧ s (i + k) = true) := by
  intro fuel
  induction fuel with
  | zero =>
      intro i
      constructor
      · intro h
        exact absurd h (by simp [pollLoop])
      · rintro ⟨k, hk, _⟩
        exact absurd hk (by omega)
  | succ fuel ih =>
      intro i
      show (if s i then StartResult.started else pollLoop s fuel (i + 1)) =
          StartResult.started ↔ _
      by_cases h : s i = true
      · rw [if_pos h]
        constructor
        · intro _
          exact ⟨0, Nat.succ_pos fuel, by simpa using h⟩
        · intro _
          rfl
      · rw [if_neg h, ih (i + 1)]
        constructor
        · rintro ⟨k, hk, hs⟩
          refine ⟨k + 1, by omega, ?_⟩
          rw [show i + (k + 1) = i + 1 + k by omega]
          exact hs
        · rintro ⟨k, hk, hs⟩
          cases k with
          | zero =>
              rw [Nat.add_zero] at hs
              exact absurd hs h
          | succ k =>
              refine ⟨k, by omega, ?_⟩
              rw [show i + 1 + k = i + (k + 1) by omega]
              exact hs

theorem pollLoop_result (s : Nat → Bool) :
    ∀ (fuel i : Nat),
      pollLoop s fuel i = StartResult.started ∨
      pollLoop s fuel i = StartResult.timedOut := by
  intro fuel
  induction fuel with
  | zero =>
      intro i
      exact Or.inr rfl
  | succ fuel ih =>
      intro i
      show (if s i then StartResult.started else pollLoop s fuel (i + 1)) =
            StartResult.started ∨
          (if s i then StartResult.started else pollLoop s fuel (i + 1)) =
            StartResult.timedOut
      by_cases h : s i = true
      · rw [if_pos h]
        exact Or.inl rfl
      · rw [if_neg h]
        exact ih (i + 1)

theorem pollLoop_timedOut_iff (s : Nat → Bool) (fuel i : Nat) :
    pollLoop s fuel i = StartResult.timedOut ↔
      ∀ k, k < fuel → s (i + k) = false := by
  constructor
  · intro ht k hk
    cases hs : s (i + k) with
    | false => rfl
    | true =>
        have := (pollLoop_started_iff s fuel i).mpr ⟨k, hk, hs⟩
        rw [ht] at this
        exact StartResult.noConfusion this
  · intro hall
    rcases pollLoop_result s fuel i with h | h
    · rcases (pollLoop_started_iff s fuel i).mp h with ⟨k, hk, hs⟩
      rw [hall k hk] at hs
      exact Bool.noConfusion hs
    · exact h

/-! ## Supervisor claims -/

/-- C4: Start is idempotent — when the liveness probe on the recorded PID
succeeds, daemon_start spawns nothing, reports already running with
success, and leaves the PID file, socket file and log file unchanged. -/
theorem C4_start_idempotent (env : StartEnv)
    (h : is_pidfile_running env.fs.pidContent env.alive = true) :
    daemon_start env = ⟨StartResult.alreadyRunning, env.fs, false⟩ := by
  simp [daemon_start, h]

/-- Witness for C4: an alive recorded PID makes start a no-op. -/
theorem C4_start_idempotent_witness :
    daemon_start ⟨⟨some "3517", true, ["boot"]⟩, fun _ => true, 9000,
      fun _ => false⟩ =
    ⟨StartResult.alreadyRunning, ⟨some "3517", true, ["boot"]⟩, false⟩ :=
  C4_start_idempotent _ (by decide)

/-- C5: a PID file entry is authoritative only when the signal-0 probe on
it succeeds; a failing probe means stale, and both Start and Status treat
the daemon as not running (Start proceeds to spawn, Status reports not
running). -/
theorem C5_liveness_probe_authoritative (pc : Option String)
    (alive : Nat → Bool) (sock : Bool) (log : List String)
    (childPid : Nat) (socketAt : Nat → Bool) :
    (is_pidfile_running pc alive = true ↔
      ∃ pid, read_pid pc = some pid ∧ alive pid = true) ∧
    (∀ pid, read_pid pc = some pid → alive pid = false →
      is_pidfile_running pc alive = false ∧
      daemon_status pc alive = StatusResult.notRunning ∧
      (daemon_start ⟨⟨pc, sock, log⟩, alive, childPid, socketAt⟩).spawned = true) := by
  constructor
  · unfold is_pidfile_running
    cases h : read_pid pc with
    | none => simp
    | some pid =>
        constructor
        · intro ha
          exact ⟨pid, rfl, ha⟩
        · rintro ⟨pid2, hp, ha⟩
          cases hp
          exact ha
  · intro pid hp ha
    have hrun : is_pidfile_running pc alive = false := by
      simp [is_pidfile_running, hp, ha]
    refine ⟨hrun, ?_, ?_⟩
    · simp [daemon_status, hrun]
    · simp [daemon_start, hrun]

/-- Witness for C5: a stale PID (probe fails) is treated as not running. -/
theorem C5_liveness_probe_authoritative_witness :
    is_pidfile_running (some "12") (fun _ => false) = false ∧
    daemon_status (some "12") (fun _ => false) = StatusResult.notRunning ∧
    (daemon_start ⟨⟨some "12", true, []⟩, fun _ => false, 77,
      fun _ => false⟩).spawned = true :=
  (C5_liveness_probe_authoritative (some "12") (fun _ => false) true [] 77
    (fun _ => false)).2 12 (by decide) rfl

/-- C8: after spawning, Start polls the socket file for at most 240
one-second iterations: the loop result is success exactly when the socket
appears at some iteration below the bound and DaemonStartTimeout exactly
when it never does, so the loop always terminates with one of the two. -/
theorem C8_start_poll_bounded (env : StartEnv)
    (h : is_pidfile_running env.fs.pidContent env.alive = false) :
    (daemon_start env).result = pollLoop env.socketAt 240 0 ∧
    (pollLoop env.socketAt 240 0 = StartResult.started ↔
      ∃ k, k < 240 ∧ env.socketAt k = true) ∧
    (pollLoop env.socketAt 240 0 = StartResult.timedOut ↔
      ∀ k, k < 240 → env.socketAt k = false) ∧
    (pollLoop env.socketAt 240 0 = StartResult.started ∨
      pollLoop env.socketAt 240 0 = StartResult.timedOut) := by
  refine ⟨by simp [daemon_start, h], ?_, ?_, pollLoop_result _ 240 0⟩
  · rw [pollLoop_started_iff]
    constructor
    · rintro ⟨k, hk, hs⟩
      rw [Nat.zero_add] at hs
      exact ⟨k, hk, hs⟩
    · rintro ⟨k, hk, hs⟩
      refine ⟨k, hk, ?_⟩
      rw [Nat.zero_add]
      exact hs
  · rw [pollLoop_timedOut_iff]
    constructor
    · intro hall k hk
      have := hall k hk
      rwa [Nat.zero_add] at this
    · intro hall k hk
      rw [Nat.zero_add]
      exact hall k hk

/-- Witness for C8: with no live PID and the socket appearing at poll
iteration 2, start succeeds. -/
theorem C8_start_poll_bounded_witness :
    (daemon_start ⟨⟨none, false, []⟩, fun _ => false, 41,
      fun i => decide (2 ≤ i)⟩).result = StartResult.started := by
  have h := C8_start_poll_bounded
    ⟨⟨none, false, []⟩, fun _ => false, 41, fun i => decide (2 ≤ i)⟩ (by decide)
  rw [h.1]
  exact h.2.1.mpr ⟨2, by omega, by decide⟩

/-- C10: a missing pidfile, or content that does not parse as a decimal
PID after trimming, yields no PID without an error, so Start proceeds to
spawn and Status reports not running instead of failing. -/
theorem C10_missing_or_corrupt_pidfile (alive : Nat → Bool) (sock : Bool)
    (log : List String) (childPid : Nat) (socketAt : Nat → Bool) :
    read_pid none = none ∧
    (∀ raw, parseU32 (strTrim raw) = none → read_pid (some raw) = none) ∧
    (∀ pc : Option String, read_pid pc = none →
      (daemon_start ⟨⟨pc, sock, log⟩, alive, childPid, socketAt⟩).spawned = true ∧
      (daemon_start ⟨⟨pc, sock, log⟩, alive, childPid, socketAt⟩).result ≠
        StartResult.alreadyRunning ∧
      daemon_status pc alive = StatusResult.notRunning) := by
  refine ⟨rfl, fun raw h => h, ?_⟩
  intro pc hp
  have hrun : is_pidfile_running pc alive = false := by
    unfold is_pidfile_running
    rw [hp]
  refine ⟨by simp [daemon_start, hrun], ?_, by simp [daemon_status, hrun]⟩
  have hres : (daemon_start ⟨⟨pc, sock, log⟩, alive, childPid, socketAt⟩).result =
      pollLoop socketAt 240 0 := by
    simp [daemon_start, hrun]
  rw [hres]
  rcases pollLoop_result socketAt 240 0 with h | h <;> rw [h] <;> decide

/-- Witness for C10: a corrupt pidfile ("not-a-pid") spawns and reports
not running rather than failing. -/
theorem C10_missing_or_corrupt_pidfile_witness :
    (daemon_start ⟨⟨some "not-a-pid", false, []⟩, fun _ => true, 5,
      fun _ => true⟩).spawned = true ∧
    daemon_status (some "not-a-pid") (fun _ => true) = StatusResult.notRunning := by
  have h := (C10_missing_or_corrupt_pidfile (fun _ => true) false [] 5
    (fun _ => true)).2.2 (some "not-a-pid") (by decide)
  exact ⟨h.1, h.2.2⟩

/-- C3 as frozen is false on the code: when the PID is present and the kill
command fails (in particular for a stale PID whose process is already
gone), daemon_stop bails out with the signal failure before any cleanup,
so the PID file and socket file are not removed and the command fails. -/
theorem C3_stop_cleanup_counterexample :
    daemon_stop (some "42") (fun _ => false) =
      ⟨StopResult.signalFailed, false, false⟩ ∧
    stopExitCode (daemon_stop (some "42") (fun _ => false)).result ≠ 0 := by
  decide

/-- C3 amended: Stop reads the PID file; with a PID present it signals the
process and fails with StopSignalFailed when signaling fails, removing
neither the PID file nor the socket file in that case; when signaling
succeeds, or when no PID could be read (missing or corrupt pidfile), it
removes both files and succeeds. -/
theorem C3_stop_cleanup_behavior (pc : Option String) (killOk : Nat → Bool) :
    (read_pid pc = none →
      daemon_stop pc killOk = ⟨StopResult.notRunning, true, true⟩ ∧
      stopExitCode StopResult.notRunning = 0) ∧
    (∀ pid, read_pid pc = some pid → killOk pid = true →
      daemon_stop pc killOk = ⟨StopResult.stopped, true, true⟩ ∧
      stopExitCode StopResult.stopped = 0) ∧
    (∀ pid, read_pid pc = some pid → killOk pid = false →
      daemon_stop pc killOk = ⟨StopResult.signalFailed, false, false⟩ ∧
      stopExitCode StopResult.signalFailed = 1) := by
  refine ⟨?_, ?_, ?_⟩
  · intro hp
    simp [daemon_stop, hp, stopExitCode]
  · intro pid hp hk
    simp [daemon_stop, hp, hk, stopExitCode]
  · intro pid hp hk
    simp [daemon_stop, hp, hk, stopExitCode]

/-- Witness for the amended C3, exercising all three paths. -/
theorem C3_stop_cleanup_behavior_witness :
    daemon_stop none (fun _ => true) = ⟨StopResult.notRunning, true, true⟩ ∧
    daemon_stop (some "7") (fun _ => true) = ⟨StopResult.stopped, true, true⟩ ∧
    daemon_stop (some "7") (fun _ => false) =
      ⟨StopResult.signalFailed, false, false⟩ :=
  ⟨((C3_stop_cleanup_behavior none (fun _ => true)).1 (by decide)).1,
   ((C3_stop_cleanup_behavior (some "7") (fun _ => true)).2.1 7 (by decide) rfl).1,
   ((C3_stop_cleanup_behavior (some "7") (fun _ => false)).2.2 7 (by decide) rfl).1⟩

/-! ## Dispatcher claims -/

/-- C1: every failure of the daemon attempt at any step (connection
refused, write failure, read timeout/error, empty response line, malformed
JSON) is an error of try_daemon_request, and on any such error the
dispatcher result is exactly the subprocess path result — the daemon error
itself never becomes the user-facing outcome. -/
theorem C1_daemon_failure_falls_back (parse : String → Option BackendResponse)
    (w : DaemonWire) (sub : SubprocessOutcome) :
    ((w.connectOk = false ∨ w.writeOk = false ∨ w.readLine = none ∨
      (∃ l, w.readLine = some l ∧ strTrim l = "") ∨
      (∃ l, w.readLine = some l ∧ strTrim l ≠ "" ∧ parse (strTrim l) = none)) →
      ∃ e, try_daemon_request parse w = Except.error e) ∧
    (∀ e, try_daemon_request parse w = Except.error e →
      dispatchRequest parse false w sub = (run_subprocess parse sub, false, true)) := by
  constructor
  · intro hfail
    by_cases hc : w.connectOk = false
    · exact ⟨DaemonErr.connectFailed, by simp [try_daemon_request, hc]⟩
    · by_cases hw : w.writeOk = false
      · exact ⟨DaemonErr.writeFailed, by simp [try_daemon_request, hc, hw]⟩
      · cases hr : w.readLine with
        | none => exact ⟨DaemonErr.readFailed, by simp [try_daemon_request, hc, hw, hr]⟩
        | some l =>
            by_cases ht : strTrim l = ""
            · exact ⟨DaemonErr.emptyResponse,
                by simp [try_daemon_request, hc, hw, hr, ht]⟩
            · cases hp : parse (strTrim l) with
              | none => exact ⟨DaemonErr.malformedJson,
                  by simp [try_daemon_request, hc, hw, hr, ht, hp]⟩
              | some r =>
                  exfalso
                  rcases hfail with h | h | h | ⟨l2, hl2, ht2⟩ | ⟨l2, hl2, _, hp2⟩
                  · exact hc h
                  · exact hw h
                  · rw [hr] at h
                    cases h
                  · rw [hr] at hl2
                    injection hl2 with he
                    subst he
                    exact ht ht2
                  · rw [hr] at hl2
                    injection hl2 with he
                    subst he
                    rw [hp] at hp2
                    cases hp2
  · intro e he
    unfold dispatchRequest
    rw [if_pos rfl, he]

/-- Witness for C1: a refused connection makes dispatch take exactly the
subprocess path. -/
theorem C1_daemon_failure_falls_back_witness :
    dispatchRequest (fun _ => none) false ⟨false, true, none⟩ ⟨true, [], []⟩ =
      (run_subprocess (fun _ => none) ⟨true, [], []⟩, false, true) :=
  (C1_daemon_failure_falls_back (fun _ => none) ⟨false, true, none⟩
    ⟨true, [], []⟩).2 DaemonErr.connectFailed rfl

/-- C2: once upstream validation passes, exactly one of the two dispatch
paths serves the request — the daemon-path flag and the subprocess-path
flag of run_transcribe are never both set and never both clear, and the
daemon path serves it exactly when the daemon is enabled and its attempt
returned a response. -/
theorem C2_exactly_one_dispatch_path (parse : String → Option BackendResponse)
    (env : TranscribeEnv) (h1 : env.inputExists = true)
    (h2 : env.venvPythonExists = true) (h3 : env.backendExists = true)
    (h4 : env.vocabOk = true) :
    (((run_transcribe parse env).2.1 = true ∧
      (run_transcribe parse env).2.2 = false) ∨
     ((run_transcribe parse env).2.1 = false ∧
      (run_transcribe parse env).2.2 = true)) ∧
    ((run_transcribe parse env).2.1 = true ↔
      env.noDaemon = false ∧
      ∃ r, try_daemon_request parse env.wire = Except.ok r) := by
  have hrt : run_transcribe parse env =
      dispatchRequest parse env.noDaemon env.wire env.sub := by
    simp [run_transcribe, h1, h2, h3, h4]
  rw [hrt]
  unfold dispatchRequest
  by_cases hnd : env.noDaemon = false
  · rw [if_pos hnd]
    cases ht : try_daemon_request parse env.wire with
    | ok r =>
        refine ⟨Or.inl ⟨rfl, rfl⟩, ?_⟩
        constructor
        · intro _
          exact ⟨hnd, r, rfl⟩
        · intro _
          rfl
    | error e =>
        refine ⟨Or.inr ⟨rfl, rfl⟩, ?_⟩
        constructor
        · intro hh
          exact Bool.noConfusion hh
        · rintro ⟨_, r, hr⟩
          cases hr
  · rw [if_neg hnd]
    refine ⟨Or.inr ⟨rfl, rfl⟩, ?_⟩
    constructor
    · intro hh
      exact Bool.noConfusion hh
    · rintro ⟨hnd2, _⟩
      exact absurd hnd2 hnd

/-- Witness for C2: with validation passing and a malformed daemon
response, the subprocess flag alone is set. -/
theorem C2_exactly_one_dispatch_path_witness :
    (((run_transcribe (fun _ => none)
        ⟨false, true, true, true, true, ⟨true, true, some "x"⟩,
          ⟨true, [], []⟩⟩).2.1 = true ∧
      (run_transcribe (fun _ => none)
        ⟨false, true, true, true, true, ⟨true, true, some "x"⟩,
          ⟨true, [], []⟩⟩).2.2 = false) ∨
     ((run_transcribe (fun _ => none)
        ⟨false, true, true, true, true, ⟨true, true, some "x"⟩,
          ⟨true, [], []⟩⟩).2.1 = false ∧
      (run_transcribe (fun _ => none)
        ⟨false, true, true, true, true, ⟨true, true, some "x"⟩,
          ⟨true, [], []⟩⟩).2.2 = true)) :=
  (C2_exactly_one_dispatch_path (fun _ => none)
    ⟨false, true, true, true, true, ⟨true, true, some "x"⟩, ⟨true, [], []⟩⟩
    rfl rfl rfl rfl).1

/-- C7: on the subprocess path with a zero exit status, the last stdout
line that looks like a JSON payload is the one parsed as the Response;
when no stdout line looks like JSON the dispatcher fails with
NoStructuredOutput and exits non-zero. -/
theorem C7_subprocess_last_json_line (parse : String → Option BackendResponse)
    (sub : SubprocessOutcome) (h : sub.exitSuccess = true) :
    (lastJsonLine sub.stdoutLines = none →
      run_subprocess parse sub = DispatchOutcome.fatal FatalErr.noStructuredOutput ∧
      exitCode (run_subprocess parse sub) ≠ 0) ∧
    (lastJsonLine sub.stdoutLines = none ↔
      ∀ l ∈ sub.stdoutLines, jsonShaped l = false) ∧
    (∀ (xs : List String) (y : String),
      lastJsonLine (xs ++ [y]) =
        if jsonShaped y then some y else lastJsonLine xs) ∧
    (∀ l, lastJsonLine sub.stdoutLines = some l →
      jsonShaped l = true ∧ l ∈ sub.stdoutLines ∧
      (∀ r, parse (strTrim l) = some r →
        run_subprocess parse sub = DispatchOutcome.subprocessServed r)) := by
  refine ⟨?_, ?_, ?_, ?_⟩
  · intro hn
    have hres : run_subprocess parse sub =
        DispatchOutcome.fatal FatalErr.noStructuredOutput := by
      simp [run_subprocess, h, hn]
    refine ⟨hres, ?_⟩
    rw [hres]
    decide
  · simp [lastJsonLine, List.find?_eq_none, List.mem_reverse]
  · intro xs y
    unfold lastJsonLine
    rw [List.reverse_append]
    by_cases hy : jsonShaped y = true
    · simp [hy]
    · simp only [Bool.not_eq_true] at hy
      simp [hy]
  · intro l hl
    have hl' : sub.stdoutLines.reverse.find? jsonShaped = some l := hl
    refine ⟨List.find?_some hl', ?_, ?_⟩
    · exact List.mem_reverse.mp (List.mem_of_find?_eq_some hl')
    · intro r hr
      simp [run_subprocess, h, hl, hr]

/-- Witness for C7: exit 0 with no JSON-shaped stdout line is the
NoStructuredOutput fatal error. -/
theorem C7_subprocess_last_json_line_witness :
    run_subprocess (fun _ => none) ⟨true, ["hello"], []⟩ =
      DispatchOutcome.fatal FatalErr.noStructuredOutput ∧
    exitCode (run_subprocess (fun _ => none) ⟨true, ["hello"], []⟩) ≠ 0 :=
  (C7_subprocess_last_json_line (fun _ => none) ⟨true, ["hello"], []⟩ rfl).1
    (by decide)

/-- Witness for C9 at a concrete request. -/
theorem C9_request_codec_roundtrip_witness :
    decodeBackendRequest (encodeBackendRequest
      ⟨"a.wav", none, "m1", "auto", some "v.txt", "text", false, true, false⟩) =
      some ⟨"a.wav", none, "m1", "auto", some "v.txt", "text", false, true, false⟩ ∧
    '\n' ∉ (encodeRequestLine
      ⟨"a.wav", none, "m1", "auto", some "v.txt", "text", false, true, false⟩).data :=
  C9_request_codec_roundtrip
    ⟨"a.wav", none, "m1", "auto", some "v.txt", "text", false, true, false⟩

end ParakeetCli
